import Mathlib

/-!
Verification model of the Agent Session Orchestrator of the ClaudeWorktree
repository (`src/main/services/agent-manager.ts`, with its collaborator
`src/main/services/git-service.ts`).

JavaScript values flowing through the NDJSON protocol are modelled by the
`Json` inductive below; JavaScript numbers are modelled exactly (as `Rat`)
rather than as IEEE doubles, since no modelled code path depends on rounding.
Host functions (`path.resolve`/`normalize`, `fs.realpathSync`) are taken as
parameters of the definitions that use them.
-/

/-- A parsed JSON value (the result of `JSON.parse`). Numbers are exact. -/
inductive Json where
  | null : Json
  | bool : Bool → Json
  | num : Rat → Json
  | str : String → Json
  | arr : List Json → Json
  | obj : List (String × Json) → Json

/-- Object field lookup, modelling JavaScript property access on an object
built by `JSON.parse` (duplicate keys: the last occurrence wins). `none`
models `undefined` (also for access on a non-object). -/
def jget (j : Json) (k : String) : Option Json :=
  match j with
  | .obj kvs => lookupLast kvs
  | _ => none
where
  lookupLast : List (String × Json) → Option Json
    | [] => none
    | (k', v) :: rest =>
      match lookupLast rest with
      | some r => some r
      | none => if k' = k then some v else none

/-- Field access on an optional object (`x?.k` / `x.k` after a previous
access), propagating `undefined`. -/
def oget (o : Option Json) (k : String) : Option Json :=
  match o with
  | some j => jget j k
  | none => none

/-- `typeof v === 'string'` extraction. -/
def asStr : Option Json → Option String
  | some (.str s) => some s
  | _ => none

/-- `typeof v === 'number'` extraction. -/
def asNum : Option Json → Option Rat
  | some (.num q) => some q
  | _ => none

/-- JavaScript truthiness of a possibly-undefined JSON value. -/
def jtruthy : Option Json → Bool
  | none => false
  | some .null => false
  | some (.bool b) => b
  | some (.num q) => q != 0
  | some (.str s) => s != ""
  | some (.arr _) => true
  | some (.obj _) => true

/-- String rendering used where the code concatenates a protocol value into
message text (`+=`); on protocol streams the value is always a string. -/
def jsToStr : Json → String
  | .str s => s
  | .bool true => "true"
  | .bool false => "false"
  | .null => "null"
  | .num q => toString q.num ++ (if q.den = 1 then "" else "/" ++ toString q.den)
  | .arr _ => ""
  | .obj _ => ""

/-- JSON insignificant whitespace (RFC 8259: space, tab, LF, CR). -/
def isJsonWs (c : Char) : Bool :=
  c = ' ' || c = '\t' || c = '\n' || c = '\r'

/-- Drop leading JSON whitespace. -/
def skipWs (cs : List Char) : List Char := cs.dropWhile isJsonWs

/-- Value of a hexadecimal digit, if any. -/
def hexVal (c : Char) : Option Nat :=
  if '0' ≤ c ∧ c ≤ '9' then some (c.toNat - '0'.toNat)
  else if 'a' ≤ c ∧ c ≤ 'f' then some (c.toNat - 'a'.toNat + 10)
  else if 'A' ≤ c ∧ c ≤ 'F' then some (c.toNat - 'A'.toNat + 10)
  else none

/-- Value of a decimal digit, if any. -/
def digVal (c : Char) : Option Nat :=
  if '0' ≤ c ∧ c ≤ '9' then some (c.toNat - '0'.toNat) else none

/-- Body of a JSON string literal (after the opening quote), with the strict
escape set of RFC 8259; `\uXXXX` surrogate pairs are combined. Fuel bounds
the recursion by the input length. -/
def parseStrBody : Nat → List Char → List Char → Option (String × List Char)
  | 0, _, _ => none
  | fuel + 1, acc, cs =>
    match cs with
    | [] => none
    | c :: rest =>
      if c = '"' then some (String.mk acc.reverse, rest)
      else if c = '\\' then
        match rest with
        | [] => none
        | e :: rest2 =>
          if e = '"' ∨ e = '\\' ∨ e = '/' then parseStrBody fuel (e :: acc) rest2
          else if e = 'b' then parseStrBody fuel (Char.ofNat 8 :: acc) rest2
          else if e = 'f' then parseStrBody fuel (Char.ofNat 12 :: acc) rest2
          else if e = 'n' then parseStrBody fuel ('\n' :: acc) rest2
          else if e = 'r' then parseStrBody fuel ('\r' :: acc) rest2
          else if e = 't' then parseStrBody fuel ('\t' :: acc) rest2
          else if e = 'u' then
            match rest2 with
            | h1 :: h2 :: h3 :: h4 :: rest3 =>
              match hexVal h1, hexVal h2, hexVal h3, hexVal h4 with
              | some a, some b, some c', some d =>
                let n := ((a * 16 + b) * 16 + c') * 16 + d
                if 0xD800 ≤ n ∧ n ≤ 0xDBFF then
                  match rest3 with
                  | '\\' :: 'u' :: g1 :: g2 :: g3 :: g4 :: rest4 =>
                    match hexVal g1, hexVal g2, hexVal g3, hexVal g4 with
                    | some a', some b', some c'', some d' =>
                      let m := ((a' * 16 + b') * 16 + c'') * 16 + d'
                      if 0xDC00 ≤ m ∧ m ≤ 0xDFFF then
                        parseStrBody fuel
                          (Char.ofNat (0x10000 + (n - 0xD800) * 0x400 + (m - 0xDC00)) :: acc)
                          rest4
                      else parseStrBody fuel (Char.ofNat 0xFFFD :: acc) rest3
                    | _, _, _, _ => parseStrBody fuel (Char.ofNat 0xFFFD :: acc) rest3
                  | _ => parseStrBody fuel (Char.ofNat 0xFFFD :: acc) rest3
                else parseStrBody fuel (Char.ofNat n :: acc) rest3
              | _, _, _, _ => none
            | _ => none
          else none
      else if c.toNat < 0x20 then none
      else parseStrBody fuel (c :: acc) rest

/-- Leading run of decimal digits. -/
def takeDigits (cs : List Char) : List Nat × List Char :=
  match cs with
  | [] => ([], [])
  | c :: rest =>
    match digVal c with
    | some d => let (ds, r) := takeDigits rest; (d :: ds, r)
    | none => ([], cs)

/-- Natural number denoted by a digit list. -/
def digitsToNat (ds : List Nat) : Nat := ds.foldl (fun a d => a * 10 + d) 0

/-- JSON number literal per the strict RFC 8259 grammar (`-`? int frac? exp?,
no leading zeros), evaluated exactly as a rational. -/
def parseNum (cs : List Char) : Option (Rat × List Char) :=
  let (neg, cs1) := match cs with
    | '-' :: r => (true, r)
    | _ => (false, cs)
  match cs1 with
  | [] => none
  | c :: _ =>
    if (digVal c).isNone then none
    else
      let (ids, cs2) := takeDigits cs1
      if ids = [] then none
      else if ids.length > 1 ∧ ids.headD 0 = 0 then none
      else
        let hasFrac := match cs2 with
          | '.' :: _ => true
          | _ => false
        let (fds, cs3) := match cs2 with
          | '.' :: r => takeDigits r
          | _ => ([], cs2)
        if hasFrac ∧ fds = [] then none
        else
          let (expOk, epos, eds, cs4) := match cs3 with
            | 'e' :: '+' :: r => let (ds, r') := takeDigits r; (!ds.isEmpty, true, ds, r')
            | 'e' :: '-' :: r => let (ds, r') := takeDigits r; (!ds.isEmpty, false, ds, r')
            | 'e' :: r => let (ds, r') := takeDigits r; (!ds.isEmpty, true, ds, r')
            | 'E' :: '+' :: r => let (ds, r') := takeDigits r; (!ds.isEmpty, true, ds, r')
            | 'E' :: '-' :: r => let (ds, r') := takeDigits r; (!ds.isEmpty, false, ds, r')
            | 'E' :: r => let (ds, r') := takeDigits r; (!ds.isEmpty, true, ds, r')
            | _ => (true, true, [], cs3)
          if expOk = false then none
          else
            let m : Nat := digitsToNat (ids ++ fds)
            let base : Rat := (m : Rat) / ((10 : Rat) ^ fds.length)
            let e : Nat := digitsToNat eds
            let scaled : Rat := if epos then base * (10 : Rat) ^ e else base / (10 : Rat) ^ e
            some ((if neg then -scaled else scaled), cs4)

/-- Check that the input starts with the given characters. -/
def leadMatch : List Char → List Char → Bool
  | [], _ => true
  | _ :: _, [] => false
  | p :: ps, c :: cs => p == c && leadMatch ps cs

mutual

/-- JSON value parser (recursive descent over the strict RFC 8259 grammar,
the grammar accepted by `JSON.parse`). Fuel bounds the recursion depth; the
top-level wrapper supplies enough fuel for any input of its length. -/
def parseVal : Nat → List Char → Option (Json × List Char)
  | 0, _ => none
  | fuel + 1, cs =>
    match skipWs cs with
    | [] => none
    | c :: rest =>
      if c = 't' then
        if leadMatch ['r', 'u', 'e'] rest then some (Json.bool true, rest.drop 3) else none
      else if c = 'f' then
        if leadMatch ['a', 'l', 's', 'e'] rest then some (Json.bool false, rest.drop 4) else none
      else if c = 'n' then
        if leadMatch ['u', 'l', 'l'] rest then some (Json.null, rest.drop 3) else none
      else if c = '"' then
        match parseStrBody (rest.length + 1) [] rest with
        | some (s, r) => some (Json.str s, r)
        | none => none
      else if c = Char.ofNat 0x7B then parseObjItems fuel [] rest
      else if c = '[' then parseArrItems fuel [] rest
      else
        match parseNum (c :: rest) with
        | some (q, r) => some (Json.num q, r)
        | none => none

/-- Array items after `[` or after a `,`; `acc` holds earlier items reversed. -/
def parseArrItems : Nat → List Json → List Char → Option (Json × List Char)
  | 0, _, _ => none
  | fuel + 1, acc, cs =>
    match acc, skipWs cs with
    | [], ']' :: rest => some (Json.arr [], rest)
    | _, _ =>
      match parseVal fuel cs with
      | none => none
      | some (v, r) =>
        match skipWs r with
        | ',' :: r2 => parseArrItems fuel (v :: acc) r2
        | ']' :: r2 => some (Json.arr (v :: acc).reverse, r2)
        | _ => none

/-- Object members after the opening brace or after a `,`; `acc` holds earlier
members reversed. -/
def parseObjItems : Nat → List (String × Json) → List Char → Option (Json × List Char)
  | 0, _, _ => none
  | fuel + 1, acc, cs =>
    match acc, skipWs cs with
    | [], c :: rest =>
      if c = Char.ofNat 0x7D then some (Json.obj [], rest)
      else parseObjMember fuel acc (c :: rest)
    | _, rest => parseObjMember fuel acc rest

/-- One `"key" : value` member followed by `,` (more members) or the closing
brace. -/
def parseObjMember (fuel : Nat) (acc : List (String × Json)) (cs : List Char) :
    Option (Json × List Char) :=
  match fuel with
  | 0 => none
  | fuel' + 1 =>
    match skipWs cs with
    | '"' :: rest =>
      match parseStrBody (rest.length + 1) [] rest with
      | none => none
      | some (k, r) =>
        match skipWs r with
        | ':' :: r2 =>
          match parseVal fuel' r2 with
          | none => none
          | some (v, r3) =>
            match skipWs r3 with
            | ',' :: r4 => parseObjItems fuel' ((k, v) :: acc) r4
            | c :: r4 =>
              if c = Char.ofNat 0x7D then some (Json.obj ((k, v) :: acc).reverse, r4)
              else none
            | _ => none
        | _ => none
    | _ => none

end

/-- The model of `JSON.parse(line)`: parse one JSON value, requiring all of
the input (up to trailing whitespace) to be consumed; `none` models a thrown
`SyntaxError`. -/
def jsonParse (s : String) : Option Json :=
  match parseVal (2 * s.length + 4) s.data with
  | some (j, rest) => if skipWs rest = [] then some j else none
  | none => none

/-- The `UsageStats` record of `@shared/types` (all fields are JS numbers). -/
structure UsageStats where
  totalCostUsd : Rat
  inputTokens : Rat
  outputTokens : Rat
  cacheCreationInputTokens : Rat
  cacheReadInputTokens : Rat
  totalTurns : Rat
  lastDurationMs : Rat
deriving Repr, DecidableEq

/-- The zeroed `UsageStats` a fresh session starts with
(`agent-manager.ts` lines 320–328). -/
def zeroUsage : UsageStats :=
  { totalCostUsd := 0, inputTokens := 0, outputTokens := 0,
    cacheCreationInputTokens := 0, cacheReadInputTokens := 0,
    totalTurns := 0, lastDurationMs := 0 }

/-- The `Message` record of `@shared/types`. `isStreaming` is optional in the
source (`isStreaming?: boolean`), so it is an `Option Bool` here. -/
structure Message where
  id : String
  role : String
  content : String
  timestamp : Int
  isStreaming : Option Bool
deriving Repr, DecidableEq

/-- The `ToolCall` record of `@shared/types`. `id`, `name` and `input` are
filled from raw protocol values, so they keep the `Json` type. -/
structure ToolCall where
  id : Json
  name : Json
  input : Json
  output : Option String
  status : String
  timestamp : Int

/-- The per-worktree `AgentSession` record of `agent-manager.ts`. The process
handle is reduced to presence (`Option Unit`); `eventCleanup` only detaches
host event listeners and has no counterpart in the pure model. -/
structure AgentSession where
  worktreeId : String
  workingDirectory : String
  process : Option Unit
  isProcessing : Bool
  messages : List Message
  currentMessageId : Option String
  error : Option String
  usage : UsageStats

/-- Observable effects emitted to the renderer (the `emitMessage`,
`emitToolCall`, `emitError`, `emitUsage` sends of `agent-manager.ts`). -/
inductive Effect where
  | message : String → Message → Effect
  | toolCall : String → ToolCall → Effect
  | error : String → String → Effect
  | usage : String → UsageStats → Effect

/-- Interpretation of the content blocks of an `assistant` event
(`agent-manager.ts` lines 417–431): `text` blocks append to the assistant
message and emit a message update; `tool_use` blocks with a truthy id and
name emit a `running` ToolCall. -/
def handleAssistantBlocks (wid : String) (now : Int) (am : Message) :
    List Json → Message × List Effect
  | [] => (am, [])
  | b :: rest =>
    if asStr (jget b "type") = some "text" ∧ (asStr (jget b "text")).isSome then
      let am2 := { am with content := am.content ++ (asStr (jget b "text")).getD "" }
      let (am3, effs) := handleAssistantBlocks wid now am2 rest
      (am3, Effect.message wid am2 :: effs)
    else if asStr (jget b "type") = some "tool_use" ∧
        jtruthy (jget b "id") ∧ jtruthy (jget b "name") then
      let tc : ToolCall :=
        { id := (jget b "id").getD .null, name := (jget b "name").getD .null,
          input := (match jget b "input" with
                    | some .null => .obj []
                    | some v => v
                    | none => .obj []),
          output := none, status := "running", timestamp := now }
      let (am3, effs) := handleAssistantBlocks wid now am rest
      (am3, Effect.toolCall wid tc :: effs)
    else
      handleAssistantBlocks wid now am rest

/-- Joined output of a `tool_result` block (`agent-manager.ts` lines 442–451):
a string is taken as is; an array keeps its `text` sub-blocks joined with
newlines; anything else yields the empty string. -/
def toolResultOutput (c : Option Json) : String :=
  match c with
  | some (.str s) => s
  | some (.arr bs) =>
    String.intercalate "\n"
      ((bs.filter (fun sb =>
          asStr (jget sb "type") = some "text" ∧ (asStr (jget sb "text")).isSome)).map
        (fun sb => (asStr (jget sb "text")).getD ""))
  | _ => ""

/-- Interpretation of the content blocks of a `user` event (`agent-manager.ts`
lines 440–463): every `tool_result` block with a truthy `tool_use_id` emits a
`completed` ToolCall carrying the joined output. -/
def handleUserBlocks (wid : String) (now : Int) : List Json → List Effect
  | [] => []
  | b :: rest =>
    if asStr (jget b "type") = some "tool_result" ∧ jtruthy (jget b "tool_use_id") then
      let tc : ToolCall :=
        { id := (jget b "tool_use_id").getD .null, name := .str "",
          input := .obj [], output := some (toolResultOutput (jget b "content")),
          status := "completed", timestamp := now }
      Effect.toolCall wid tc :: handleUserBlocks wid now rest
    else
      handleUserBlocks wid now rest

/-- The additive contribution a `result` event makes to one token counter:
the event's `usage.<k>` (with `?? 0` for a missing field), or nothing when
the event carries no truthy `usage` object (`agent-manager.ts` lines
476–481). -/
def usageNum (e : Json) (k : String) : Rat :=
  if jtruthy (jget e "usage") then (asNum (oget (jget e "usage") k)).getD 0 else 0

/-- The usage update a `result` event applies (`agent-manager.ts` lines
476–490). The source updates the fields one statement at a time; since every
statement touches a distinct field, the net effect is this single record:
the four token counters and `totalTurns` accumulate (adding 0 when the
guarding field is absent, exactly as `?? 0` does), while `totalCostUsd` and
`lastDurationMs` are overwritten when the event carries a number. -/
def updateUsage (e : Json) (u : UsageStats) : UsageStats :=
  { totalCostUsd := (asNum (jget e "total_cost_usd")).getD u.totalCostUsd
    inputTokens := u.inputTokens + usageNum e "input_tokens"
    outputTokens := u.outputTokens + usageNum e "output_tokens"
    cacheCreationInputTokens :=
      u.cacheCreationInputTokens + usageNum e "cache_creation_input_tokens"
    cacheReadInputTokens :=
      u.cacheReadInputTokens + usageNum e "cache_read_input_tokens"
    totalTurns := u.totalTurns + (asNum (jget e "num_turns")).getD 0
    lastDurationMs := (asNum (jget e "duration_ms")).getD u.lastDurationMs }

/-- Interpretation of the terminal `result` event (`agent-manager.ts` lines
467–493): on the `error` subtype the result text is appended; the assistant
message is marked non-streaming and re-emitted; the usage update is applied
and a usage snapshot is emitted. -/
def handleResultEvent (_now : Int) (e : Json) (s : AgentSession) (am : Message) :
    AgentSession × Message × List Effect :=
  let am1 :=
    if asStr (jget e "subtype") = some "error" ∧ jtruthy (jget e "result") then
      { am with content := am.content ++ jsToStr ((jget e "result").getD .null) }
    else am
  let am2 := { am1 with isStreaming := some false }
  let u4 := updateUsage e s.usage
  let s' := { s with usage := u4 }
  (s', am2, [Effect.message s.worktreeId am2, Effect.usage s.worktreeId u4])

/-- The event dispatch of `parseStreamLine` (`agent-manager.ts` lines 407–498)
applied to an already-parsed JSON record: `system` and unknown types are
ignored; `assistant` and `user` require an array-valued `message.content`. -/
def handleEvent (now : Int) (e : Json) (s : AgentSession) (am : Message) :
    AgentSession × Message × List Effect :=
  match asStr (jget e "type") with
  | some "system" => (s, am, [])
  | some "assistant" =>
    match oget (jget e "message") "content" with
    | some (.arr bs) =>
      let (am', effs) := handleAssistantBlocks s.worktreeId now am bs
      (s, am', effs)
    | _ => (s, am, [])
  | some "user" =>
    match oget (jget e "message") "content" with
    | some (.arr bs) => (s, am, handleUserBlocks s.worktreeId now bs)
    | _ => (s, am, [])
  | some "result" => handleResultEvent now e s am
  | _ => (s, am, [])

/-- Folding a list of already-parsed protocol records through the event
dispatch, accumulating emitted effects in order. -/
def runEventList (now : Int) (s : AgentSession) (am : Message) :
    List Json → AgentSession × Message × List Effect
  | [] => (s, am, [])
  | e :: rest =>
    let (s1, am1, effs1) := handleEvent now e s am
    let (s2, am2, effs2) := runEventList now s1 am1 rest
    (s2, am2, effs1 ++ effs2)

/-- The character set removed by JavaScript `String.prototype.trim` that can
occur in this protocol (ASCII whitespace plus NBSP and the BOM). -/
def isJsSpace (c : Char) : Bool :=
  c = ' ' || c = '\t' || c = '\n' || c = '\r' ||
  c = Char.ofNat 0x0B || c = Char.ofNat 0x0C ||
  c = Char.ofNat 0xA0 || c = Char.ofNat 0xFEFF ||
  c = Char.ofNat 0x2028 || c = Char.ofNat 0x2029

/-- Model of JavaScript `s.trim()`. -/
def jsTrim (s : String) : String :=
  String.mk (((s.data.dropWhile isJsSpace).reverse.dropWhile isJsSpace).reverse)

/-- Split a character list at every newline; adjacent, leading and trailing
newlines produce empty groups, and the empty input yields one empty group. -/
def splitNlChars : List Char → List (List Char)
  | [] => [[]]
  | c :: rest =>
    if c = '\n' then [] :: splitNlChars rest
    else
      match splitNlChars rest with
      | [] => [[c]]
      | g :: gs => (c :: g) :: gs

/-- Model of JavaScript `s.split('\n')` (every occurrence separates; leading,
trailing and adjacent separators produce empty fields). -/
def jsSplitNl (s : String) : List String := (splitNlChars s.data).map String.mk

/-- One `data` callback of the stdout NDJSON buffer (`agent-manager.ts` lines
543–554), at the string level: append the chunk, split on newlines, keep the
last (possibly incomplete) field as the new buffer, and hand every completed
field back (to be trimmed, filtered and parsed). -/
def chunkSplit (buf data : String) : String × List String :=
  let parts := jsSplitNl (buf ++ data)
  (parts.getLastD "", parts.dropLast)

/-- The trim-and-drop-empty filtering the stdout loop applies to completed
fields before handing them to `parseStreamLine`. -/
def trimmedLines (raw : List String) : List String :=
  (raw.map jsTrim).filter (fun l => l ≠ "")

/-- The raw completed fields produced by feeding a chunk sequence through the
line buffer, together with the final buffer residue. -/
def extractRaw (buf : String) : List String → String × List String
  | [] => (buf, [])
  | d :: ds =>
    let (b1, ls) := chunkSplit buf d
    let (bf, rest) := extractRaw b1 ds
    (bf, ls ++ rest)

/-- The final line the close handler flushes out of the residual buffer
(`agent-manager.ts` lines 570–573), if its trim is non-empty. -/
def residLines (buf : String) : List String :=
  if jsTrim buf = "" then [] else [jsTrim buf]

/-- All lines the decoder hands to `parseStreamLine` for a chunk sequence
followed by stream end: the trimmed non-empty completed fields, then the
trimmed buffer residue flushed by the close handler when non-empty. -/
def extractLines (chunks : List String) : List String :=
  let (buf, raw) := extractRaw "" chunks
  trimmedLines raw ++ residLines buf

/-- `parseStreamLine` (`agent-manager.ts` lines 394–499): parse the line as
JSON; a parse failure discards the line with no effect; otherwise dispatch on
the event type. -/
def parseStreamLine (now : Int) (line : String) (s : AgentSession) (am : Message) :
    AgentSession × Message × List Effect :=
  match jsonParse line with
  | none => (s, am, [])
  | some e => handleEvent now e s am

/-- Feed a list of already-extracted lines through `parseStreamLine` in
order. -/
def runLines (now : Int) (s : AgentSession) (am : Message) :
    List String → AgentSession × Message × List Effect
  | [] => (s, am, [])
  | l :: rest =>
    let (s1, am1, effs1) := parseStreamLine now l s am
    let (s2, am2, effs2) := runLines now s1 am1 rest
    (s2, am2, effs1 ++ effs2)

/-- Decoder state while a process is streaming. -/
structure DecodeState where
  session : AgentSession
  am : Message
  lineBuffer : String

/-- One stdout `data` event: buffer-split the chunk and run the completed
lines. -/
def stepStdout (now : Int) (st : DecodeState) (data : String) : DecodeState × List Effect :=
  let (buf1, raw) := chunkSplit st.lineBuffer data
  let (s1, am1, effs) := runLines now st.session st.am (trimmedLines raw)
  (⟨s1, am1, buf1⟩, effs)

/-- The close-time flush of the residual buffer (`agent-manager.ts` lines
570–573). -/
def flushResidue (now : Int) (st : DecodeState) : DecodeState × List Effect :=
  if jsTrim st.lineBuffer = "" then (st, [])
  else
    let (s1, am1, effs) := parseStreamLine now (jsTrim st.lineBuffer) st.session st.am
    (⟨s1, am1, st.lineBuffer⟩, effs)

/-- Fold a whole chunk sequence through the stdout handler. -/
def stepStdoutList (now : Int) (st : DecodeState) : List String → DecodeState × List Effect
  | [] => (st, [])
  | d :: ds =>
    let (st1, effs1) := stepStdout now st d
    let (st2, effs2) := stepStdoutList now st1 ds
    (st2, effs1 ++ effs2)

/-- The full Stream Protocol Decoder on a chunk sequence followed by stream
end: per-chunk line splitting and parsing, then the residual flush. -/
def decodeChunks (now : Int) (s : AgentSession) (am : Message) (chunks : List String) :
    AgentSession × Message × List Effect :=
  let (st1, effs1) := stepStdoutList now ⟨s, am, ""⟩ chunks
  let (st2, effs2) := flushResidue now st1
  (st2.session, st2.am, effs1 ++ effs2)

/-- UTF-8 encoding of one Unicode scalar value. -/
def utf8EncodeChar (c : Char) : List Nat :=
  let n := c.toNat
  if n < 0x80 then [n]
  else if n < 0x800 then
    [0xC0 + n / 0x40, 0x80 + n % 0x40]
  else if n < 0x10000 then
    [0xE0 + n / 0x1000, 0x80 + n / 0x40 % 0x40, 0x80 + n % 0x40]
  else
    [0xF0 + n / 0x40000, 0x80 + n / 0x1000 % 0x40, 0x80 + n / 0x40 % 0x40, 0x80 + n % 0x40]

/-- UTF-8 encoding of a string, as a byte list. -/
def utf8Encode (s : String) : List Nat :=
  (s.data.map utf8EncodeChar).flatten

/-- Is `b` a UTF-8 continuation byte (`10xxxxxx`)? -/
def isCont (b : Nat) : Bool := 0x80 ≤ b ∧ b ≤ 0xBF

/-- Lossy UTF-8 decoding of one byte buffer, as performed by Node's
`Buffer.prototype.toString('utf8')`: each maximal invalid subpart (including
a sequence truncated by the end of the buffer) becomes one U+FFFD
replacement character. Fuel bounds the recursion; every call consumes at
least one byte, so fuel equal to the buffer length suffices. -/
def utf8LossyFuel : Nat → List Nat → List Char
  | 0, _ => []
  | _, [] => []
  | fuel + 1, b :: rest =>
    if b < 0x80 then Char.ofNat b :: utf8LossyFuel fuel rest
    else if 0xC2 ≤ b ∧ b ≤ 0xDF then
      match rest with
      | b2 :: rest2 =>
        if isCont b2 then
          Char.ofNat ((b - 0xC0) * 0x40 + (b2 - 0x80)) :: utf8LossyFuel fuel rest2
        else Char.ofNat 0xFFFD :: utf8LossyFuel fuel rest
      | [] => [Char.ofNat 0xFFFD]
    else if 0xE0 ≤ b ∧ b ≤ 0xEF then
      match rest with
      | b2 :: rest2 =>
        if (if b = 0xE0 then 0xA0 ≤ b2 ∧ b2 ≤ 0xBF
            else if b = 0xED then 0x80 ≤ b2 ∧ b2 ≤ 0x9F
            else isCont b2 = true) then
          match rest2 with
          | b3 :: rest3 =>
            if isCont b3 then
              Char.ofNat ((b - 0xE0) * 0x1000 + (b2 - 0x80) * 0x40 + (b3 - 0x80)) ::
                utf8LossyFuel fuel rest3
            else Char.ofNat 0xFFFD :: utf8LossyFuel fuel rest2
          | [] => [Char.ofNat 0xFFFD]
        else Char.ofNat 0xFFFD :: utf8LossyFuel fuel rest
      | [] => [Char.ofNat 0xFFFD]
    else if 0xF0 ≤ b ∧ b ≤ 0xF4 then
      match rest with
      | b2 :: rest2 =>
        if (if b = 0xF0 then 0x90 ≤ b2 ∧ b2 ≤ 0xBF
            else if b = 0xF4 then 0x80 ≤ b2 ∧ b2 ≤ 0x8F
            else isCont b2 = true) then
          match rest2 with
          | b3 :: rest3 =>
            if isCont b3 then
              match rest3 with
              | b4 :: rest4 =>
                if isCont b4 then
                  Char.ofNat ((b - 0xF0) * 0x40000 + (b2 - 0x80) * 0x1000 +
                      (b3 - 0x80) * 0x40 + (b4 - 0x80)) :: utf8LossyFuel fuel rest4
                else Char.ofNat 0xFFFD :: utf8LossyFuel fuel rest3
              | [] => [Char.ofNat 0xFFFD]
            else Char.ofNat 0xFFFD :: utf8LossyFuel fuel rest2
          | [] => [Char.ofNat 0xFFFD]
        else Char.ofNat 0xFFFD :: utf8LossyFuel fuel rest
      | [] => [Char.ofNat 0xFFFD]
    else Char.ofNat 0xFFFD :: utf8LossyFuel fuel rest

/-- Lossy UTF-8 decoding of a whole byte buffer. -/
def utf8Lossy (bs : List Nat) : List Char := utf8LossyFuel (bs.length + 1) bs

/-- `data.toString()` applied per received byte chunk, as the stdout handler
does (`agent-manager.ts` line 544). -/
def chunkToString (bytes : List Nat) : String := String.mk (utf8Lossy bytes)

/-- The lines the decoder hands to `parseStreamLine` when the process writes
the given byte chunks: each chunk is decoded to text on its own, then fed to
the line buffer. -/
def extractLinesBytes (chunks : List (List Nat)) : List String :=
  extractLines (chunks.map chunkToString)

/-- The authentication-failure patterns of `agent-manager.ts` lines 44–54
(each is compiled to a case-insensitive regular expression; `.*` is the only
metasyntax that occurs). -/
def AUTH_ERROR_PATTERNS : List String :=
  ["not authenticated", "not logged in", "please log in", "please run.*login",
   "authentication required", "unauthorized", "invalid.*api.*key",
   "expired.*token", "claude login"]

/-- Characters matched by an unflagged JavaScript regex `.` (anything except
line terminators). -/
def dotOk (c : Char) : Bool :=
  c ≠ '\n' && c ≠ '\r' && c ≠ Char.ofNat 0x2028 && c ≠ Char.ofNat 0x2029

/-- Split a pattern's characters at each `.*` wildcard, yielding the literal
segments. -/
def splitWildAux (acc : List Char) : List Char → List String
  | [] => [String.mk acc.reverse]
  | '.' :: '*' :: rest => String.mk acc.reverse :: splitWildAux [] rest
  | c :: rest => splitWildAux (c :: acc) rest

mutual

/-- Match literal segments separated by `.*` gaps, anchored at the current
position. Fuel bounds the recursion (one unit per segment or consumed gap
character). -/
def segsMatch : Nat → List String → List Char → Bool
  | _, [], _ => true
  | 0, _ :: _, _ => false
  | fuel + 1, s :: rest, cs =>
    match rest with
    | [] => leadMatch s.data cs
    | _ :: _ => leadMatch s.data cs && gapThen fuel rest (cs.drop s.data.length)

/-- Consume any number of `.`-matchable characters, then match the remaining
segments. -/
def gapThen : Nat → List String → List Char → Bool
  | 0, _, _ => false
  | fuel + 1, segs, cs =>
    segsMatch fuel segs cs ||
      (match cs with
       | [] => false
       | c :: rest => dotOk c && gapThen fuel segs rest)

end

/-- `new RegExp(pattern, 'i').test(text)` for the patterns above: the
segment sequence may match starting at any position. -/
def reTest (pat text : String) : Bool :=
  let segs := splitWildAux [] pat.data
  anySuffix segs text.data
where
  anySuffix (segs : List String) : List Char → Bool
    | [] => segsMatch 1 segs []
    | c :: rest => segsMatch (rest.length + segs.length + 2) segs (c :: rest) ||
        anySuffix segs rest

/-- ASCII lower-casing of one character (the patterns are pure ASCII, so
this coincides with JavaScript `toLowerCase` wherever a pattern could
match). -/
def lowerChar (c : Char) : Char :=
  if 'A' ≤ c ∧ c ≤ 'Z' then Char.ofNat (c.toNat + 32) else c

/-- Lower-casing of a string (`text.toLowerCase()`). -/
def lowerStr (s : String) : String := String.mk (s.data.map lowerChar)

/-- `isAuthError` (`agent-manager.ts` lines 59–62): lower-case the text and
test every authentication-failure pattern against it. -/
def isAuthError (text : String) : Bool :=
  AUTH_ERROR_PATTERNS.any (fun p => reTest p (lowerStr text))

/-- Security limits of `agent-manager.ts` lines 23–24. -/
def MAX_PROMPT_LENGTH : Nat := 100000

/-- Maximum number of live sessions (`agent-manager.ts` line 24). -/
def MAX_SESSIONS : Nat := 50

/-- The orchestrator's session map (`Map<string, AgentSession>`), as an
association list with distinct keys. -/
def SessionMap : Type := List (String × AgentSession)

/-- `Map.prototype.get`. -/
def mget : SessionMap → String → Option AgentSession
  | [], _ => none
  | (k', v) :: rest, k => if k' = k then some v else mget rest k

/-- `Map.prototype.set` (replace in place, else append). -/
def mset : SessionMap → String → AgentSession → SessionMap
  | [], k, v => [(k, v)]
  | (k', v') :: rest, k, v =>
    if k' = k then (k, v) :: rest else (k', v') :: mset rest k v

/-- `Map.prototype.has`. -/
def mhas (st : SessionMap) (k : String) : Bool := (mget st k).isSome

/-- `Map.prototype.size` (valid on distinct-key representations). -/
def msize (st : SessionMap) : Nat := st.length

/-- Does `sub` occur as a contiguous run inside the haystack? -/
def containsSeq (needle : List Char) : List Char → Bool
  | [] => needle.isEmpty
  | c :: rest => leadMatch needle (c :: rest) || containsSeq needle rest

/-- `String.prototype.includes`. -/
def strIncludes (s sub : String) : Bool := containsSeq sub.data s.data

/-- `validateWorkingDirectory` (`agent-manager.ts` lines 94–107). The
canonicalization `normalize(resolve(cwd))` is a host function and is taken
as the parameter `resolveNorm` (it does not throw on strings). -/
def validateWorkingDirectory (resolveNorm : String → String) (cwd : String) :
    Option String :=
  if cwd = "" then none
  else if 4096 < cwd.length then none
  else if strIncludes cwd (String.mk [Char.ofNat 0]) then none
  else some (resolveNorm cwd)

/-- `validatePath` of `git-service.ts` (lines 543–573) as used with no base
restriction; `resolveRealPath` is the host canonicalizer parameter. -/
def validatePath (resolveReal : String → String) (inputPath : String) : Option String :=
  if inputPath = "" then none
  else if 4096 < inputPath.length then none
  else if strIncludes inputPath (String.mk [Char.ofNat 0]) then none
  else if strIncludes inputPath "%2e" || strIncludes inputPath "%2E" then none
  else if strIncludes inputPath "%2f" || strIncludes inputPath "%2F" then none
  else some (resolveReal inputPath)

/-- `isKnownWorktreePath` of `git-service.ts` (lines 932–941): validate the
path, then require explicit membership in the tracked worktree-path set. -/
def isKnownWorktreePath (resolveReal : String → String)
    (knownWorktreePaths : List String) (path : String) : Bool :=
  match validatePath resolveReal path with
  | none => false
  | some v => knownWorktreePaths.contains v

/-- The fresh `AgentSession` installed by `createSession` (`agent-manager.ts`
lines 313–329). -/
def freshSession (worktreeId validCwd : String) : AgentSession :=
  { worktreeId := worktreeId, workingDirectory := validCwd, process := none,
    isProcessing := false, messages := [], currentMessageId := none,
    error := none, usage := zeroUsage }

/-- The session-state part of `abortSession` (`agent-manager.ts` lines
620–656): clear the process handle and the in-flight markers; a missing
session is a no-op. Killing the OS process is a host side effect with no
state beyond the cleared handle. -/
def abortSession (st : SessionMap) (worktreeId : String) : SessionMap :=
  match mget st worktreeId with
  | none => st
  | some s =>
    mset st worktreeId
      { s with process := none, isProcessing := false, currentMessageId := none }

/-- `createSession` (`agent-manager.ts` lines 287–330): validate the id and
directory, require a registered worktree path, enforce the session cap
(unless re-creating), abort any existing session and install a fresh one.
Errors leave the map unchanged. -/
def createSession (resolveNorm resolveReal : String → String)
    (knownWorktreePaths : List String) (st : SessionMap)
    (worktreeId cwd : String) : SessionMap × Except String Unit :=
  if worktreeId = "" then (st, .error "Invalid worktree ID")
  else
    match validateWorkingDirectory resolveNorm cwd with
    | none => (st, .error "Invalid working directory")
    | some validCwd =>
      if isKnownWorktreePath resolveReal knownWorktreePaths validCwd = false then
        (st, .error "Working directory is not a known worktree")
      else if MAX_SESSIONS ≤ msize st ∧ mhas st worktreeId = false then
        (st, .error "Maximum sessions reached")
      else
        let st1 := if mhas st worktreeId then abortSession st worktreeId else st
        (mset st1 worktreeId (freshSession worktreeId validCwd), .ok ())

/-- `getMessages` (`agent-manager.ts` lines 677–680): the session's messages,
or the empty list when no session exists for the id. -/
def getMessages (st : SessionMap) (worktreeId : String) : List Message :=
  match mget st worktreeId with
  | some s => s.messages
  | none => []

/-- An observable chunk arriving from the child process on one of its output
streams. -/
inductive ProcEvent where
  | out : String → ProcEvent
  | errOut : String → ProcEvent

/-- How the child process run terminates: a `close` event with an exit code,
or an `error` event (the process could not be spawned). After an `error`
the handlers are detached, so no close-time processing happens. -/
inductive ProcEnd where
  | closed : Option Int → ProcEnd
  | spawnFailed : ProcEnd

/-- A whole observable child-process run. -/
structure Script where
  events : List ProcEvent
  ending : ProcEnd

/-- Handler state while `runClaudeAgent` is streaming. -/
structure RunState where
  session : AgentSession
  am : Message
  lineBuffer : String
  stderrBuffer : String

/-- The remediation text installed in the assistant message when an
authentication failure is detected on standard error (`agent-manager.ts`
line 562). -/
def authRemediationText : String :=
  "Authentication required. Please log in to Claude CLI first.\n\nOpen a terminal and run:\n```\nclaude login\n```\n\nYou can use the \"Open Terminal to Login\" button above to do this automatically."

/-- The session-scoped error emitted alongside the remediation message
(`agent-manager.ts` line 565). -/
def authErrorNotice : String :=
  "Not authenticated - please run \"claude login\" in a terminal"

/-- The stderr handler (`agent-manager.ts` lines 556–567): accumulate the
chunk; if the whole accumulated buffer matches an authentication-failure
pattern, overwrite the assistant message with remediation text, force it
non-streaming, and emit the message update and a session-scoped error
immediately (without waiting for process exit). -/
def stepStderr (st : RunState) (data : String) : RunState × List Effect :=
  let buf := st.stderrBuffer ++ data
  if isAuthError buf then
    let am' := { st.am with content := authRemediationText, isStreaming := some false }
    ({ st with am := am', stderrBuffer := buf },
     [Effect.message st.session.worktreeId am',
      Effect.error st.session.worktreeId authErrorNotice])
  else ({ st with stderrBuffer := buf }, [])

/-- Dispatch one child-process output chunk to the stdout or stderr
handler. -/
def stepProc (now : Int) (st : RunState) : ProcEvent → RunState × List Effect
  | .out d =>
    let (d1, effs) := stepStdout now ⟨st.session, st.am, st.lineBuffer⟩ d
    ({ st with session := d1.session, am := d1.am, lineBuffer := d1.lineBuffer }, effs)
  | .errOut d => stepStderr st d

/-- Fold a list of output chunks through the handlers in arrival order. -/
def stepProcList (now : Int) (st : RunState) : List ProcEvent → RunState × List Effect
  | [] => (st, [])
  | e :: rest =>
    let (st1, effs1) := stepProc now st e
    let (st2, effs2) := stepProcList now st1 rest
    (st2, effs1 ++ effs2)

/-- `runClaudeAgent` (`agent-manager.ts` lines 504–615) over an observable
process run: CLI discovery failure rejects before anything runs; otherwise
the process handle is installed, output chunks are handled in order, and the
run ends with either the close handler (residual flush, handle cleared,
safety-net finalization of the streaming flag, resolve on exit code 0) or
the error handler (handle cleared, reject, no flush and no safety net since
the close listener is detached by `cleanup`). -/
def runClaudeAgent (claudeFound : Bool) (now : Int) (s : AgentSession) (am : Message)
    (script : Script) : AgentSession × Message × List Effect × Except String Unit :=
  if claudeFound = false then
    (s, am, [], .error "Claude CLI not found in safe locations")
  else
    let st0 : RunState := ⟨{ s with process := some () }, am, "", ""⟩
    let (st1, effs1) := stepProcList now st0 script.events
    match script.ending with
    | .closed code =>
      let (d2, effs2) := flushResidue now ⟨st1.session, st1.am, st1.lineBuffer⟩
      let s2 := { d2.session with process := none }
      let (am3, effs3) :=
        if d2.am.isStreaming = some true then
          let am' := { d2.am with isStreaming := some false }
          (am', [Effect.message s2.worktreeId am'])
        else (d2.am, [])
      (s2, am3, effs1 ++ effs2 ++ effs3,
       if code = some 0 then .ok () else .error "Claude process failed")
    | .spawnFailed =>
      ({ st1.session with process := none }, st1.am, effs1, .error "Failed to run Claude")

/-- Result of one `sendMessage` call: the updated session map, the effects
emitted during the call, and the synchronous validation outcome (a thrown
validation error, or resolution — process failures are caught inside). -/
structure SendOutcome where
  sessions : SessionMap
  effects : List Effect
  result : Except String Unit

/-- `sendMessage` (`agent-manager.ts` lines 335–389): validate the id,
message and session state; then mark the session processing, append and emit
the user message, create the streaming assistant placeholder, run the agent
process, capture any process failure into the session error and a
session-scoped error event, and finally clear the processing flag and the
current-message marker. The fresh message ids and the wall clock are
parameters. -/
def sendMessage (claudeFound : Bool) (now : Int) (userMsgId amMsgId : String)
    (st : SessionMap) (worktreeId message : String) (script : Script) : SendOutcome :=
  if worktreeId = "" then ⟨st, [], .error "Invalid worktree ID"⟩
  else if message = "" then ⟨st, [], .error "Invalid message"⟩
  else if MAX_PROMPT_LENGTH < message.length then ⟨st, [], .error "Message too long"⟩
  else
    match mget st worktreeId with
    | none => ⟨st, [], .error "Session not found"⟩
    | some s =>
      if s.isProcessing = true then ⟨st, [], .error "Agent is busy"⟩
      else
        let userMessage : Message :=
          { id := userMsgId, role := "user", content := message,
            timestamp := now, isStreaming := none }
        let am0 : Message :=
          { id := amMsgId, role := "assistant", content := "",
            timestamp := now, isStreaming := some true }
        let s1 := { s with isProcessing := true, currentMessageId := some amMsgId }
        let (s2, amF, runEffs, runRes) := runClaudeAgent claudeFound now s1 am0 script
        let s3 := match runRes with
          | .ok _ => s2
          | .error e => { s2 with error := some e }
        let errEffs := match runRes with
          | .ok _ => []
          | .error e => [Effect.error worktreeId e]
        let s4 :=
          { s3 with
            isProcessing := false
            currentMessageId := none
            messages := s.messages ++ [userMessage, amF] }
        ⟨mset st worktreeId s4,
         Effect.message worktreeId userMessage :: (runEffs ++ errEffs), .ok ()⟩

/-! Helper lemmas about the session map and lists. -/

theorem mget_mset_self (st : SessionMap) (k : String) (v : AgentSession) :
    mget (mset st k v) k = some v := by
  induction st with
  | nil => simp [mget, mset]
  | cons hd tl ih =>
    obtain ⟨k', v'⟩ := hd
    by_cases h : k' = k
    · simp [mget, mset, h]
    · simp [mget, mset, h, ih]

theorem getLast?_append_pair {α : Type} (xs : List α) (a b : α) :
    (xs ++ [a, b]).getLast? = some b := by
  induction xs with
  | nil => rfl
  | cons hd tl ih =>
    rw [List.cons_append]
    cases h : tl ++ [a, b] with
    | nil => simp at h
    | cons y ys => rw [List.getLast?_cons_cons, ← h, ih]

/-! ## C10 -/

/-- C10: for every worktreeId that has no session in the session map,
`getMessages` returns the empty list rather than raising an error or
creating a session (the model function returns only the message list and
does not touch the map). -/
theorem getMessages_unknown_session_empty (st : SessionMap) (worktreeId : String)
    (h : mget st worktreeId = none) : getMessages st worktreeId = [] := by
  unfold getMessages
  rw [h]

theorem getMessages_unknown_session_empty_witness :
    mget ([] : SessionMap) "w9" = none ∧ getMessages ([] : SessionMap) "w9" = [] :=
  ⟨rfl, getMessages_unknown_session_empty [] "w9" rfl⟩

/-! ## C6 -/

/-- C6: for every `createSession(id, rawPath)` where the validated,
canonicalized path is not a registered worktree (`isKnownWorktreePath`
returns false), the call fails with the authorization error and the session
map is returned unchanged. -/
theorem createSession_unknown_worktree_rejected
    (resolveNorm resolveReal : String → String) (known : List String)
    (st : SessionMap) (worktreeId cwd v : String)
    (hid : worktreeId ≠ "")
    (hv : validateWorkingDirectory resolveNorm cwd = some v)
    (hk : isKnownWorktreePath resolveReal known v = false) :
    createSession resolveNorm resolveReal known st worktreeId cwd =
      (st, .error "Working directory is not a known worktree") := by
  simp [createSession, hid, hv, hk]

theorem createSession_unknown_worktree_rejected_witness :
    validateWorkingDirectory id "/repo-a" = some "/repo-a" ∧
    isKnownWorktreePath id [] "/repo-a" = false ∧
    createSession id id [] [] "w1" "/repo-a" =
      ([], .error "Working directory is not a known worktree") :=
  ⟨rfl, rfl,
   createSession_unknown_worktree_rejected id id [] [] "w1" "/repo-a" "/repo-a"
     (by decide) rfl rfl⟩

/-! ## C5 -/

/-- C5: with a valid, registered working directory, `createSession` on a map
already holding `MAX_SESSIONS` (50) sessions and no session for the id fails
with the capacity error and returns the map unchanged; when a session for
the id already exists the call succeeds regardless of the cap, aborting the
existing session and replacing it with a fresh `AgentSession` whose
`UsageStats` are all zero, whose message list is empty, and whose process
handle is absent. -/
theorem createSession_cap_and_replace
    (resolveNorm resolveReal : String → String) (known : List String)
    (st : SessionMap) (worktreeId cwd v : String)
    (hid : worktreeId ≠ "")
    (hv : validateWorkingDirectory resolveNorm cwd = some v)
    (hk : isKnownWorktreePath resolveReal known v = true) :
    (MAX_SESSIONS ≤ msize st ∧ mhas st worktreeId = false →
      createSession resolveNorm resolveReal known st worktreeId cwd =
        (st, .error "Maximum sessions reached")) ∧
    (mhas st worktreeId = true →
      createSession resolveNorm resolveReal known st worktreeId cwd =
        (mset (abortSession st worktreeId) worktreeId (freshSession worktreeId v),
         .ok ()) ∧
      mget (mset (abortSession st worktreeId) worktreeId (freshSession worktreeId v))
          worktreeId = some (freshSession worktreeId v) ∧
      (freshSession worktreeId v).usage = zeroUsage ∧
      (freshSession worktreeId v).messages = [] ∧
      (freshSession worktreeId v).process = none ∧
      (freshSession worktreeId v).isProcessing = false) := by
  constructor
  · intro hcap
    simp [createSession, hid, hv, hk, hcap]
  · intro hhas
    have hcap : ¬ (MAX_SESSIONS ≤ msize st ∧ mhas st worktreeId = false) := by
      rintro ⟨_, hf⟩
      rw [hhas] at hf
      simp at hf
    refine ⟨?_, mget_mset_self _ _ _, rfl, rfl, rfl, rfl⟩
    simp [createSession, hid, hv, hk, hcap, hhas]

/-- A map holding the maximum number of sessions, with distinct keys and no
session for `"w"`. -/
def fullMap : SessionMap :=
  (List.range MAX_SESSIONS).map (fun i => ("s" ++ toString i, freshSession "f" "/p"))

/-- A map holding exactly one session, for `"w"`. -/
def oneMap : SessionMap := mset [] "w" (freshSession "w" "/q")

theorem createSession_cap_and_replace_witness :
    (MAX_SESSIONS ≤ msize fullMap ∧ mhas fullMap "w" = false) ∧
    createSession id id ["/p"] fullMap "w" "/p" =
      (fullMap, .error "Maximum sessions reached") ∧
    mhas oneMap "w" = true ∧
    createSession id id ["/q"] oneMap "w" "/q" =
      (mset (abortSession oneMap "w") "w" (freshSession "w" "/q"), .ok ()) := by
  have h1 := (createSession_cap_and_replace id id ["/p"] fullMap "w" "/p" "/p"
    (by decide) rfl rfl).1 ⟨by decide, by decide⟩
  have h2 := (createSession_cap_and_replace id id ["/q"] oneMap "w" "/q" "/q"
    (by decide) rfl rfl).2 (by decide)
  exact ⟨⟨by decide, by decide⟩, h1, by decide, h2.1⟩

/-! ## C4 -/

/-- The user-event block loop emits exactly one completed ToolCall per
`tool_result` block with a truthy `tool_use_id`, in order, and nothing for
any other block — it keeps no registry of previously seen `tool_use` ids. -/
theorem handleUserBlocks_filterMap (wid : String) (now : Int) (bs : List Json) :
    handleUserBlocks wid now bs = bs.filterMap (fun b =>
      if asStr (jget b "type") = some "tool_result" ∧ jtruthy (jget b "tool_use_id") then
        some (Effect.toolCall wid
          { id := (jget b "tool_use_id").getD .null, name := .str "", input := .obj [],
            output := some (toolResultOutput (jget b "content")),
            status := "completed", timestamp := now })
      else none) := by
  induction bs with
  | nil => rfl
  | cons b rest ih =>
    by_cases h : asStr (jget b "type") = some "tool_result" ∧ jtruthy (jget b "tool_use_id")
    · simp [handleUserBlocks, h, ih]
    · simp [handleUserBlocks, h, ih]

/-- C4 (amended): a `user` event's `tool_result` blocks are processed
statelessly — the session and assistant message are unchanged, and every
block with a truthy `tool_use_id` emits a `completed` ToolCall update for
that id regardless of whether a matching running `tool_use` was previously
seen (unknown, duplicate or out-of-order ids are therefore *not* ignored and
are not fatal either); blocks without a truthy `tool_use_id` emit nothing,
and no `error`-status transition is ever produced here. -/
theorem user_event_emits_completed_toolcalls (now : Int) (e : Json)
    (s : AgentSession) (am : Message) (bs : List Json)
    (ht : asStr (jget e "type") = some "user")
    (hc : oget (jget e "message") "content" = some (.arr bs)) :
    handleEvent now e s am = (s, am, bs.filterMap (fun b =>
      if asStr (jget b "type") = some "tool_result" ∧ jtruthy (jget b "tool_use_id") then
        some (Effect.toolCall s.worktreeId
          { id := (jget b "tool_use_id").getD .null, name := .str "", input := .obj [],
            output := some (toolResultOutput (jget b "content")),
            status := "completed", timestamp := now })
      else none)) := by
  unfold handleEvent
  rw [ht, hc]
  show (s, am, handleUserBlocks s.worktreeId now bs) = _
  rw [handleUserBlocks_filterMap]

/-- A `user` event carrying a tool_result whose `tool_use_id` "t9" never
appeared in any previous `tool_use`. -/
def unknownIdUserEvent : Json :=
  Json.obj [("type", Json.str "user"),
            ("message", Json.obj [("content", Json.arr
              [Json.obj [("type", Json.str "tool_result"),
                         ("tool_use_id", Json.str "t9")]])])]

/-- C4 counterexample: on a fresh session that has seen no `tool_use`, the
`user` event for the unknown id "t9" is *not* ignored — a `completed`
ToolCall status transition for "t9" is emitted, contradicting the claim that
no transition is emitted for an unknown id. -/
theorem unknown_tool_result_not_ignored :
    (handleEvent 0 unknownIdUserEvent (freshSession "w" "/p")
        { id := "a1", role := "assistant", content := "", timestamp := 0,
          isStreaming := some true }).2.2 =
      [Effect.toolCall "w"
        { id := Json.str "t9", name := Json.str "", input := Json.obj [],
          output := some "", status := "completed", timestamp := 0 }] ∧
    (handleEvent 0 unknownIdUserEvent (freshSession "w" "/p")
        { id := "a1", role := "assistant", content := "", timestamp := 0,
          isStreaming := some true }).2.2 ≠ [] := by
  constructor
  · rfl
  · intro h
    rw [show (handleEvent 0 unknownIdUserEvent (freshSession "w" "/p")
        { id := "a1", role := "assistant", content := "", timestamp := 0,
          isStreaming := some true }).2.2 =
      [Effect.toolCall "w"
        { id := Json.str "t9", name := Json.str "", input := Json.obj [],
          output := some "", status := "completed", timestamp := 0 }] from rfl] at h
    exact absurd h (by simp)

theorem user_event_emits_completed_toolcalls_witness :
    asStr (jget unknownIdUserEvent "type") = some "user" ∧
    oget (jget unknownIdUserEvent "message") "content" = some (.arr
      [Json.obj [("type", Json.str "tool_result"), ("tool_use_id", Json.str "t9")]]) ∧
    handleEvent 7 unknownIdUserEvent (freshSession "w" "/p")
        { id := "a1", role := "assistant", content := "x", timestamp := 0,
          isStreaming := some true } =
      (freshSession "w" "/p",
       { id := "a1", role := "assistant", content := "x", timestamp := 0,
         isStreaming := some true },
       [Effect.toolCall "w"
         { id := Json.str "t9", name := Json.str "", input := Json.obj [],
           output := some "", status := "completed", timestamp := 7 }]) := by
  refine ⟨rfl, rfl, ?_⟩
  rw [user_event_emits_completed_toolcalls 7 unknownIdUserEvent _ _ _ rfl rfl]
  rfl

/-! ## C7 -/

/-- The `assistant` event of the correlation scenario: one `tool_use` block
with id "t1" and a name. -/
def assistantToolUseEvent : Json :=
  Json.obj [("type", Json.str "assistant"),
            ("message", Json.obj [("content", Json.arr
              [Json.obj [("type", Json.str "tool_use"), ("id", Json.str "t1"),
                         ("name", Json.str "Bash"),
                         ("input", Json.obj [])]])])]

/-- The follow-up `user` event: a tool_result for "t1" whose content is an
array of two text sub-blocks "a" and "b". -/
def toolResultABEvent : Json :=
  Json.obj [("type", Json.str "user"),
            ("message", Json.obj [("content", Json.arr
              [Json.obj [("type", Json.str "tool_result"),
                         ("tool_use_id", Json.str "t1"),
                         ("content", Json.arr
                           [Json.obj [("type", Json.str "text"), ("text", Json.str "a")],
                            Json.obj [("type", Json.str "text"), ("text", Json.str "b")]])]])])]

/-- C7: the `assistant` event with tool_use "t1" emits a running ToolCall,
and the following `user` event with tool_result content
`[text "a", text "b"]` emits a ToolCall update for "t1" with
status `completed` and output `"a\nb"` — the text sub-blocks are joined with
a newline separator. -/
theorem toolcall_correlation_scenario :
    runEventList 0 (freshSession "w" "/p")
        { id := "a1", role := "assistant", content := "", timestamp := 0,
          isStreaming := some true }
        [assistantToolUseEvent, toolResultABEvent] =
      (freshSession "w" "/p",
       { id := "a1", role := "assistant", content := "", timestamp := 0,
         isStreaming := some true },
       [Effect.toolCall "w"
          { id := Json.str "t1", name := Json.str "Bash", input := Json.obj [],
            output := none, status := "running", timestamp := 0 },
        Effect.toolCall "w"
          { id := Json.str "t1", name := Json.str "", input := Json.obj [],
            output := some "a\nb", status := "completed", timestamp := 0 }]) := by
  rfl

/-! ## C1 -/

/-- Sum of the additive contributions of a list of `result` events to the
usage counter `k`. -/
def sumUsage (evs : List Json) (k : String) : Rat :=
  (evs.map (fun e => usageNum e k)).sum

/-- Sum of the `num_turns` contributions of a list of `result` events. -/
def sumTurns (evs : List Json) : Rat :=
  (evs.map (fun e => (asNum (jget e "num_turns")).getD 0)).sum

/-- The last numeric value for field `k` among a list of events, if any
event carries one (models last-turn-wins overwriting). -/
def lastNum (evs : List Json) (k : String) : Option Rat :=
  (evs.filterMap (fun e => asNum (jget e k))).getLast?

theorem getLast?_cons_getD {α : Type} (a : α) (l : List α) (d : α) :
    (a :: l).getLast?.getD d = l.getLast?.getD a := by
  cases l with
  | nil => rfl
  | cons b l' =>
    rw [List.getLast?_cons_cons]
    have hne : (b :: l').getLast?.isSome := by
      rw [List.getLast?_isSome]
      simp
    obtain ⟨x, hx⟩ := Option.isSome_iff_exists.mp hne
    rw [hx]
    rfl

theorem lastNum_cons (e : Json) (evs : List Json) (k : String) (d : Rat) :
    (lastNum (e :: evs) k).getD d = (lastNum evs k).getD ((asNum (jget e k)).getD d) := by
  unfold lastNum
  cases h : asNum (jget e k) with
  | none => simp [List.filterMap_cons, h]
  | some a => simp [List.filterMap_cons, h, getLast?_cons_getD]

/-- A `result` event updates the session's usage exactly through
`updateUsage` and leaves the rest of the session record unchanged. -/
theorem handleEvent_result_session (now : Int) (e : Json) (s : AgentSession)
    (am : Message) (ht : asStr (jget e "type") = some "result") :
    (handleEvent now e s am).1 = { s with usage := updateUsage e s.usage } := by
  unfold handleEvent
  rw [ht]
  rfl

/-- Splitting one step off `runEventList` (projection form). -/
theorem runEventList_cons_fst (now : Int) (s : AgentSession) (am : Message)
    (e : Json) (rest : List Json) :
    (runEventList now s am (e :: rest)).1 =
      (runEventList now (handleEvent now e s am).1 (handleEvent now e s am).2.1 rest).1 := by
  rcases hh : handleEvent now e s am with ⟨s1, am1, effs1⟩
  simp [runEventList, hh]

/-- C1 (amended): over any sequence of processed `result` events, the usage
fields `inputTokens`, `outputTokens`, `cacheCreationInputTokens`,
`cacheReadInputTokens` and `totalTurns` accumulate additively (each
finalized turn's values are added to the running totals), while
`totalCostUsd` and `lastDurationMs` are both overwritten with the most
recent turn's value that carries one (last-turn-wins). -/
theorem result_events_usage_accumulation (now : Int) (s : AgentSession)
    (am : Message) (evs : List Json)
    (h : ∀ e ∈ evs, asStr (jget e "type") = some "result") :
    ((runEventList now s am evs).1).usage.inputTokens
        = s.usage.inputTokens + sumUsage evs "input_tokens" ∧
    ((runEventList now s am evs).1).usage.outputTokens
        = s.usage.outputTokens + sumUsage evs "output_tokens" ∧
    ((runEventList now s am evs).1).usage.cacheCreationInputTokens
        = s.usage.cacheCreationInputTokens + sumUsage evs "cache_creation_input_tokens" ∧
    ((runEventList now s am evs).1).usage.cacheReadInputTokens
        = s.usage.cacheReadInputTokens + sumUsage evs "cache_read_input_tokens" ∧
    ((runEventList now s am evs).1).usage.totalTurns
        = s.usage.totalTurns + sumTurns evs ∧
    ((runEventList now s am evs).1).usage.totalCostUsd
        = (lastNum evs "total_cost_usd").getD s.usage.totalCostUsd ∧
    ((runEventList now s am evs).1).usage.lastDurationMs
        = (lastNum evs "duration_ms").getD s.usage.lastDurationMs := by
  induction evs generalizing s am with
  | nil =>
    simp [runEventList, sumUsage, sumTurns, lastNum]
  | cons e rest ih =>
    have ht := h e (List.mem_cons_self e rest)
    have hrest : ∀ e' ∈ rest, asStr (jget e' "type") = some "result" :=
      fun e' he' => h e' (List.mem_cons_of_mem e he')
    have ihr := ih { s with usage := updateUsage e s.usage }
      (handleEvent now e s am).2.1 hrest
    rw [runEventList_cons_fst, handleEvent_result_session now e s am ht]
    obtain ⟨i1, i2, i3, i4, i5, i6, i7⟩ := ihr
    refine ⟨?_, ?_, ?_, ?_, ?_, ?_, ?_⟩
    · rw [i1]
      show s.usage.inputTokens + usageNum e "input_tokens" + sumUsage rest "input_tokens"
          = s.usage.inputTokens + sumUsage (e :: rest) "input_tokens"
      rw [show sumUsage (e :: rest) "input_tokens"
            = usageNum e "input_tokens" + sumUsage rest "input_tokens" by simp [sumUsage]]
      ring
    · rw [i2]
      show s.usage.outputTokens + usageNum e "output_tokens" + sumUsage rest "output_tokens"
          = s.usage.outputTokens + sumUsage (e :: rest) "output_tokens"
      rw [show sumUsage (e :: rest) "output_tokens"
            = usageNum e "output_tokens" + sumUsage rest "output_tokens" by simp [sumUsage]]
      ring
    · rw [i3]
      show s.usage.cacheCreationInputTokens + usageNum e "cache_creation_input_tokens"
            + sumUsage rest "cache_creation_input_tokens"
          = s.usage.cacheCreationInputTokens + sumUsage (e :: rest) "cache_creation_input_tokens"
      rw [show sumUsage (e :: rest) "cache_creation_input_tokens"
            = usageNum e "cache_creation_input_tokens"
              + sumUsage rest "cache_creation_input_tokens" by simp [sumUsage]]
      ring
    · rw [i4]
      show s.usage.cacheReadInputTokens + usageNum e "cache_read_input_tokens"
            + sumUsage rest "cache_read_input_tokens"
          = s.usage.cacheReadInputTokens + sumUsage (e :: rest) "cache_read_input_tokens"
      rw [show sumUsage (e :: rest) "cache_read_input_tokens"
            = usageNum e "cache_read_input_tokens"
              + sumUsage rest "cache_read_input_tokens" by simp [sumUsage]]
      ring
    · rw [i5]
      show s.usage.totalTurns + (asNum (jget e "num_turns")).getD 0 + sumTurns rest
          = s.usage.totalTurns + sumTurns (e :: rest)
      rw [show sumTurns (e :: rest)
            = (asNum (jget e "num_turns")).getD 0 + sumTurns rest by simp [sumTurns]]
      ring
    · rw [i6]
      show (lastNum rest "total_cost_usd").getD
            ((asNum (jget e "total_cost_usd")).getD s.usage.totalCostUsd)
          = (lastNum (e :: rest) "total_cost_usd").getD s.usage.totalCostUsd
      rw [lastNum_cons]
    · rw [i7]
      show (lastNum rest "duration_ms").getD
            ((asNum (jget e "duration_ms")).getD s.usage.lastDurationMs)
          = (lastNum (e :: rest) "duration_ms").getD s.usage.lastDurationMs
      rw [lastNum_cons]

/-- A `result` event carrying only a total cost. -/
def costResultEvent (c : Rat) : Json :=
  Json.obj [("type", Json.str "result"), ("total_cost_usd", Json.num c)]

/-- The streaming assistant placeholder used by the concrete scenarios. -/
def baseAssistantMsg : Message :=
  { id := "a1", role := "assistant", content := "", timestamp := 0,
    isStreaming := some true }

/-- C1 counterexample: after two `result` events whose `total_cost_usd` are
1 and 2, the session's `totalCostUsd` is 2 — the last value — and not the
additive accumulation 0 + (1 + 2) = 3 the claim requires, so `totalCostUsd`
does not accumulate additively. -/
theorem totalCostUsd_not_additive :
    ((runEventList 0 (freshSession "w" "/p") baseAssistantMsg
        [costResultEvent 1, costResultEvent 2]).1).usage.totalCostUsd = 2 ∧
    (2 : Rat) ≠ 0 + (1 + 2) := by
  constructor
  · rfl
  · norm_num

/-- First example turn: usage input 10, output 5, one turn, 100 ms. -/
def turnEvent1 : Json :=
  Json.obj [("type", Json.str "result"),
            ("usage", Json.obj [("input_tokens", Json.num 10),
                                ("output_tokens", Json.num 5)]),
            ("num_turns", Json.num 1), ("duration_ms", Json.num 100)]

/-- Second example turn: usage input 3, output 7, one turn, 250 ms. -/
def turnEvent2 : Json :=
  Json.obj [("type", Json.str "result"),
            ("usage", Json.obj [("input_tokens", Json.num 3),
                                ("output_tokens", Json.num 7)]),
            ("num_turns", Json.num 1), ("duration_ms", Json.num 250)]

theorem result_events_usage_accumulation_witness :
    (∀ e ∈ [turnEvent1, turnEvent2], asStr (jget e "type") = some "result") ∧
    ((runEventList 0 (freshSession "w" "/p") baseAssistantMsg
        [turnEvent1, turnEvent2]).1).usage.inputTokens = 13 ∧
    ((runEventList 0 (freshSession "w" "/p") baseAssistantMsg
        [turnEvent1, turnEvent2]).1).usage.outputTokens = 12 ∧
    ((runEventList 0 (freshSession "w" "/p") baseAssistantMsg
        [turnEvent1, turnEvent2]).1).usage.totalTurns = 2 ∧
    ((runEventList 0 (freshSession "w" "/p") baseAssistantMsg
        [turnEvent1, turnEvent2]).1).usage.lastDurationMs = 250 := by
  have hty : ∀ e ∈ [turnEvent1, turnEvent2], asStr (jget e "type") = some "result" := by
    intro e he
    simp only [List.mem_cons, List.not_mem_nil, or_false] at he
    rcases he with rfl | rfl
    · rfl
    · rfl
  obtain ⟨h1, h2, _, _, h5, _, h7⟩ :=
    result_events_usage_accumulation 0 (freshSession "w" "/p") baseAssistantMsg
      [turnEvent1, turnEvent2] hty
  refine ⟨hty, ?_, ?_, ?_, ?_⟩
  · rw [h1,
        show sumUsage [turnEvent1, turnEvent2] "input_tokens"
          = usageNum turnEvent1 "input_tokens" + (usageNum turnEvent2 "input_tokens" + 0)
          from rfl,
        show usageNum turnEvent1 "input_tokens" = 10 from rfl,
        show usageNum turnEvent2 "input_tokens" = 3 from rfl]
    norm_num [freshSession, zeroUsage]
  · rw [h2,
        show sumUsage [turnEvent1, turnEvent2] "output_tokens"
          = usageNum turnEvent1 "output_tokens" + (usageNum turnEvent2 "output_tokens" + 0)
          from rfl,
        show usageNum turnEvent1 "output_tokens" = 5 from rfl,
        show usageNum turnEvent2 "output_tokens" = 7 from rfl]
    norm_num [freshSession, zeroUsage]
  · rw [h5,
        show sumTurns [turnEvent1, turnEvent2] = 1 + (1 + 0) from rfl]
    norm_num [freshSession, zeroUsage]
  · rw [h7,
        show lastNum [turnEvent1, turnEvent2] "duration_ms" = some 250 from rfl]
    rfl

/-! ## C8 -/

/-- C8: whenever the accumulated standard-error text (previous buffer plus
the arriving chunk) matches an authentication-failure pattern, that very
chunk's handling short-circuits the turn: the assistant message is
overwritten with the remediation text and marked non-streaming, and the
message update plus a session-scoped error are emitted immediately — without
waiting for process exit. -/
theorem stderr_auth_pattern_short_circuits (st : RunState) (data : String)
    (h : isAuthError (st.stderrBuffer ++ data) = true) :
    stepStderr st data =
      ({ st with
          am := { st.am with content := authRemediationText, isStreaming := some false }
          stderrBuffer := st.stderrBuffer ++ data },
       [Effect.message st.session.worktreeId
          { st.am with content := authRemediationText, isStreaming := some false },
        Effect.error st.session.worktreeId authErrorNotice]) := by
  simp [stepStderr, h]

/-- A run state with an idle stderr buffer, as at process start. -/
def authRunState : RunState :=
  { session := freshSession "w" "/p", am := baseAssistantMsg,
    lineBuffer := "", stderrBuffer := "" }

theorem stderr_auth_pattern_short_circuits_witness :
    isAuthError (authRunState.stderrBuffer ++ "Error: not authenticated\n") = true ∧
    stepStderr authRunState "Error: not authenticated\n" =
      ({ authRunState with
          am := { authRunState.am with
                  content := authRemediationText, isStreaming := some false }
          stderrBuffer := authRunState.stderrBuffer ++ "Error: not authenticated\n" },
       [Effect.message authRunState.session.worktreeId
          { authRunState.am with
            content := authRemediationText, isStreaming := some false },
        Effect.error authRunState.session.worktreeId authErrorNotice]) := by
  have h : isAuthError (authRunState.stderrBuffer ++ "Error: not authenticated\n") = true := by
    rfl
  exact ⟨h, stderr_auth_pattern_short_circuits authRunState "Error: not authenticated\n" h⟩

/-! ## C9 -/

theorem runLines_append (now : Int) (s : AgentSession) (am : Message)
    (xs ys : List String) :
    runLines now s am (xs ++ ys) =
      ((runLines now (runLines now s am xs).1 (runLines now s am xs).2.1 ys).1,
       (runLines now (runLines now s am xs).1 (runLines now s am xs).2.1 ys).2.1,
       (runLines now s am xs).2.2 ++
         (runLines now (runLines now s am xs).1 (runLines now s am xs).2.1 ys).2.2) := by
  induction xs generalizing s am with
  | nil => simp [runLines]
  | cons l rest ih =>
    rcases hp : parseStreamLine now l s am with ⟨s1, am1, e1⟩
    simp [runLines, hp, ih s1 am1, List.append_assoc]

/-- The per-chunk stdout handling followed by the close-time flush factors
through line extraction: running the decoder over a chunk sequence is the
same as running `parseStreamLine` over the extracted lines. -/
theorem decode_factor (now : Int) (chunks : List String) :
    ∀ (s : AgentSession) (am : Message) (buf : String),
      (let (st1, effs1) := stepStdoutList now ⟨s, am, buf⟩ chunks
       let (st2, effs2) := flushResidue now st1
       (st2.session, st2.am, effs1 ++ effs2)) =
      runLines now s am (trimmedLines (extractRaw buf chunks).2 ++
        residLines (extractRaw buf chunks).1) := by
  induction chunks with
  | nil =>
    intro s am buf
    by_cases h : jsTrim buf = ""
    · simp [stepStdoutList, flushResidue, extractRaw, trimmedLines, residLines, h, runLines]
    · rcases hp : parseStreamLine now (jsTrim buf) s am with ⟨s1, am1, e1⟩
      simp [stepStdoutList, flushResidue, extractRaw, trimmedLines, residLines, h,
            runLines, hp]
  | cons d ds ih =>
    intro s am buf
    rcases hcs : chunkSplit buf d with ⟨b1, raw1⟩
    rcases hr : runLines now s am (trimmedLines raw1) with ⟨sa, ama, ea⟩
    have hstep : stepStdout now ⟨s, am, buf⟩ d = (⟨sa, ama, b1⟩, ea) := by
      simp [stepStdout, hcs, hr]
    have hx : extractRaw buf (d :: ds) =
        ((extractRaw b1 ds).1, raw1 ++ (extractRaw b1 ds).2) := by
      simp [extractRaw, hcs]
    rw [hx]
    have htl : trimmedLines (raw1 ++ (extractRaw b1 ds).2) =
        trimmedLines raw1 ++ trimmedLines (extractRaw b1 ds).2 := by
      simp [trimmedLines]
    rw [htl, List.append_assoc, runLines_append, hr]
    rcases hsl : stepStdoutList now ⟨sa, ama, b1⟩ ds with ⟨stx, ex⟩
    rcases hfl : flushResidue now stx with ⟨sty, ey⟩
    have hih := ih sa ama b1
    simp only [hsl, hfl] at hih
    simp only [stepStdoutList, hstep, hsl, hfl]
    rw [← hih]
    simp [List.append_assoc]

/-- Lines that fail to parse as JSON are discarded with no state change and
no effects. -/
theorem runLines_unparsable (now : Int) (s : AgentSession) (am : Message)
    (ls : List String) (h : ∀ l ∈ ls, jsonParse l = none) :
    runLines now s am ls = (s, am, []) := by
  induction ls with
  | nil => rfl
  | cons l rest ih =>
    have hp : parseStreamLine now l s am = (s, am, []) := by
      unfold parseStreamLine
      rw [h l (List.mem_cons_self l rest)]
    simp [runLines, hp, ih (fun l' hl' => h l' (List.mem_cons_of_mem l hl'))]

/-- C9: for every input to the stream decoder consisting only of whitespace
and/or lines that are not parseable JSON, zero effects are emitted and the
session and assistant message are unchanged. (Whitespace-only lines are
dropped by the trim filter before parsing; a parse failure returns instead
of raising, so no exception escapes — the model functions are total.) -/
theorem unparsable_input_no_effects (now : Int) (s : AgentSession) (am : Message)
    (chunks : List String) (h : ∀ l ∈ extractLines chunks, jsonParse l = none) :
    decodeChunks now s am chunks = (s, am, []) := by
  have hf := decode_factor now chunks s am ""
  have hex : extractLines chunks =
      trimmedLines (extractRaw "" chunks).2 ++ residLines (extractRaw "" chunks).1 := rfl
  unfold decodeChunks
  rw [hf]
  exact runLines_unparsable now s am _ (fun l hl => h l (by rw [hex]; exact hl))

theorem unparsable_input_no_effects_witness :
    extractLines ["  \n", "oops\nnot json"] = ["oops", "not json"] ∧
    (∀ l ∈ extractLines ["  \n", "oops\nnot json"], jsonParse l = none) ∧
    decodeChunks 0 (freshSession "w" "/p") baseAssistantMsg ["  \n", "oops\nnot json"] =
      (freshSession "w" "/p", baseAssistantMsg, []) := by
  have hx : extractLines ["  \n", "oops\nnot json"] = ["oops", "not json"] := by rfl
  have h : ∀ l ∈ extractLines ["  \n", "oops\nnot json"], jsonParse l = none := by
    rw [hx]
    intro l hl
    simp only [List.mem_cons, List.not_mem_nil, or_false] at hl
    rcases hl with rfl | rfl
    · rfl
    · rfl
  exact ⟨hx, h, unparsable_input_no_effects 0 (freshSession "w" "/p") baseAssistantMsg
    ["  \n", "oops\nnot json"] h⟩

/-! ## C3 -/

/-- A valid one-record NDJSON line containing a two-byte UTF-8 character. -/
def multibyteLine : String := "\x7b\"k\":\"é\"\x7d"

/-- What the decoder actually produces when the line's bytes are split
inside the two-byte character: each half-sequence decodes to U+FFFD. -/
def corruptedLine : String := "\x7b\"k\":\"��\"\x7d"

/-- C3 (divergence witnessed): decoding the unsplit 10-byte line yields the
original record, but splitting the same bytes into two chunks at offset 7 —
between the two bytes of `é` — yields a different line whose decoded record
has `"k"` equal to two U+FFFD replacement characters instead of `é`,
because each chunk is converted to text on its own
(`data.toString()`, `agent-manager.ts` line 544) before buffering. So one
byte-offset split changes the decoded record, contrary to the invariance
claim for all byte-offset splits. -/
theorem chunk_split_multibyte_corruption :
    extractLinesBytes [utf8Encode multibyteLine] = [multibyteLine] ∧
    extractLinesBytes [(utf8Encode multibyteLine).take 7,
                       (utf8Encode multibyteLine).drop 7] = [corruptedLine] ∧
    ((jsonParse corruptedLine).bind (fun j => asStr (jget j "k")))
      = some "��" ∧
    ((jsonParse multibyteLine).bind (fun j => asStr (jget j "k"))) = some "é" ∧
    (some "��" : Option String) ≠ some "é" := by
  refine ⟨rfl, rfl, rfl, rfl, by decide⟩

/-! ## C2 -/

theorem handleAssistantBlocks_isStreaming (wid : String) (now : Int) (am : Message)
    (bs : List Json) :
    ((handleAssistantBlocks wid now am bs).1).isStreaming = am.isStreaming := by
  induction bs generalizing am with
  | nil => rfl
  | cons b rest ih =>
    by_cases h1 : asStr (jget b "type") = some "text" ∧ (asStr (jget b "text")).isSome
    · simp [handleAssistantBlocks, h1, ih]
    · by_cases h2 : asStr (jget b "type") = some "tool_use" ∧
          jtruthy (jget b "id") ∧ jtruthy (jget b "name")
      · simp [handleAssistantBlocks, h1, h2, ih]
      · simp [handleAssistantBlocks, h1, h2, ih]

theorem handleEvent_isStreaming (now : Int) (e : Json) (s : AgentSession) (am : Message) :
    ((handleEvent now e s am).2.1).isStreaming = am.isStreaming ∨
    ((handleEvent now e s am).2.1).isStreaming = some false := by
  unfold handleEvent
  split
  · exact Or.inl rfl
  · split
    · rename_i bs heq
      left
      show ((handleAssistantBlocks s.worktreeId now am bs).1).isStreaming = am.isStreaming
      exact handleAssistantBlocks_isStreaming s.worktreeId now am bs
    · exact Or.inl rfl
  · split
    · exact Or.inl rfl
    · exact Or.inl rfl
  · exact Or.inr rfl
  · exact Or.inl rfl

theorem parseStreamLine_isStreaming (now : Int) (l : String) (s : AgentSession)
    (am : Message) :
    ((parseStreamLine now l s am).2.1).isStreaming = am.isStreaming ∨
    ((parseStreamLine now l s am).2.1).isStreaming = some false := by
  unfold parseStreamLine
  split
  · exact Or.inl rfl
  · exact handleEvent_isStreaming now _ s am

theorem runLines_isStreaming (now : Int) (s : AgentSession) (am : Message)
    (ls : List String) :
    ((runLines now s am ls).2.1).isStreaming = am.isStreaming ∨
    ((runLines now s am ls).2.1).isStreaming = some false := by
  induction ls generalizing s am with
  | nil => exact Or.inl rfl
  | cons l rest ih =>
    rcases hp : parseStreamLine now l s am with ⟨s1, am1, e1⟩
    have h1 := parseStreamLine_isStreaming now l s am
    rw [hp] at h1
    have h2 := ih s1 am1
    simp only [runLines, hp]
    rcases hr : runLines now s1 am1 rest with ⟨s2, am2, e2⟩
    rw [hr] at h2
    simp only []
    rcases h2 with h2 | h2
    · rcases h1 with h1 | h1
      · exact Or.inl (by rw [h2, h1])
      · exact Or.inr (by rw [h2, h1])
    · exact Or.inr h2

theorem stepStdout_isStreaming (now : Int) (st : DecodeState) (data : String) :
    ((stepStdout now st data).1).am.isStreaming = st.am.isStreaming ∨
    ((stepStdout now st data).1).am.isStreaming = some false := by
  unfold stepStdout
  rcases hcs : chunkSplit st.lineBuffer data with ⟨b1, raw⟩
  simp only [hcs]
  have h := runLines_isStreaming now st.session st.am (trimmedLines raw)
  rcases hr : runLines now st.session st.am (trimmedLines raw) with ⟨s1, am1, e1⟩
  rw [hr] at h
  simp only [hr]
  simpa using h

theorem stepStderr_isStreaming (st : RunState) (data : String) :
    ((stepStderr st data).1).am.isStreaming = st.am.isStreaming ∨
    ((stepStderr st data).1).am.isStreaming = some false := by
  unfold stepStderr
  by_cases h : isAuthError (st.stderrBuffer ++ data) = true
  · simp [h]
  · simp [h]

theorem stepProc_isStreaming (now : Int) (st : RunState) (ev : ProcEvent) :
    ((stepProc now st ev).1).am.isStreaming = st.am.isStreaming ∨
    ((stepProc now st ev).1).am.isStreaming = some false := by
  cases ev with
  | out d =>
    have h := stepStdout_isStreaming now ⟨st.session, st.am, st.lineBuffer⟩ d
    rcases hs : stepStdout now ⟨st.session, st.am, st.lineBuffer⟩ d with ⟨d1, effs⟩
    rw [hs] at h
    simp only [stepProc, hs]
    exact h
  | errOut d => exact stepStderr_isStreaming st d

theorem stepProcList_isStreaming (now : Int) (st : RunState) (evs : List ProcEvent) :
    ((stepProcList now st evs).1).am.isStreaming = st.am.isStreaming ∨
    ((stepProcList now st evs).1).am.isStreaming = some false := by
  induction evs generalizing st with
  | nil => exact Or.inl rfl
  | cons ev rest ih =>
    have h1 := stepProc_isStreaming now st ev
    rcases hp : stepProc now st ev with ⟨st1, e1⟩
    rw [hp] at h1
    have h2 := ih st1
    rcases hr : stepProcList now st1 rest with ⟨st2, e2⟩
    rw [hr] at h2
    simp only [stepProcList, hp, hr]
    rcases h2 with h2 | h2
    · rcases h1 with h1 | h1
      · exact Or.inl (by rw [h2, h1])
      · exact Or.inr (by rw [h2, h1])
    · exact Or.inr h2

theorem flushResidue_isStreaming (now : Int) (st : DecodeState) :
    ((flushResidue now st).1).am.isStreaming = st.am.isStreaming ∨
    ((flushResidue now st).1).am.isStreaming = some false := by
  unfold flushResidue
  by_cases h : jsTrim st.lineBuffer = ""
  · simp [h]
  · have hp := parseStreamLine_isStreaming now (jsTrim st.lineBuffer) st.session st.am
    rcases hr : parseStreamLine now (jsTrim st.lineBuffer) st.session st.am
      with ⟨s1, am1, e1⟩
    rw [hr] at hp
    simp [h, hr]
    exact hp

/-- After a run that reached the close handler, the assistant message is
never left streaming: either a `result` event (or an auth-error detection)
already cleared the flag, or the close-time safety net forces it false. -/
theorem runClaudeAgent_closed_isStreaming (now : Int) (s : AgentSession) (am : Message)
    (script : Script) (code : Option Int)
    (h0 : am.isStreaming = some true)
    (he : script.ending = .closed code) :
    ((runClaudeAgent true now s am script).2.1).isStreaming = some false := by
  obtain ⟨events, ending⟩ := script
  simp only at he
  subst he
  unfold runClaudeAgent
  simp only [Bool.true_eq_false, if_false]
  have h1 := stepProcList_isStreaming now ⟨{ s with process := some () }, am, "", ""⟩ events
  rcases hsp : stepProcList now ⟨{ s with process := some () }, am, "", ""⟩ events
    with ⟨st1, effs1⟩
  rw [hsp] at h1
  have h2 := flushResidue_isStreaming now ⟨st1.session, st1.am, st1.lineBuffer⟩
  rcases hfl : flushResidue now ⟨st1.session, st1.am, st1.lineBuffer⟩ with ⟨d2, effs2⟩
  rw [hfl] at h2
  simp only []
  by_cases hx : d2.am.isStreaming = some true
  · simp [hx]
  · have hf : d2.am.isStreaming = some false := by
      rcases h2 with h2 | h2
      · rcases h1 with h1 | h1
        · rw [h2, h1, h0] at hx
          exact absurd rfl hx
        · rw [h2, h1]
      · exact h2
    simp [hx, hf]

/-- C2 (amended): every accepted `sendMessage` call resolves (the validation
outcome is `ok`; process failures are caught internally), and after
resolution the session's `isProcessing` is false on every outcome; whenever
the child process reached its close event (exit code zero or not), the
assistant message appended for the turn additionally ends with
`isStreaming = some false` — cleared by a `result` event or auth detection,
or forced once by the close-time safety net. (On a spawn failure the
rejection path never touches the streaming flag, so only `isProcessing` is
guaranteed there.) -/
theorem sendMessage_resolves_processing_cleared (now : Int) (uid aid : String)
    (st : SessionMap) (wid msg : String) (script : Script) (s : AgentSession)
    (hw : ¬ wid = "") (hm : ¬ msg = "") (hl : ¬ MAX_PROMPT_LENGTH < msg.length)
    (hs : mget st wid = some s) (hp : s.isProcessing = false) :
    (sendMessage true now uid aid st wid msg script).result = .ok () ∧
    ∃ s', mget (sendMessage true now uid aid st wid msg script).sessions wid = some s' ∧
      s'.isProcessing = false ∧
      (∀ code, script.ending = .closed code →
        ∃ m, s'.messages.getLast? = some m ∧ m.isStreaming = some false) := by
  have hstream := runClaudeAgent_closed_isStreaming now
    { s with isProcessing := true, currentMessageId := some aid }
    { id := aid, role := "assistant", content := "", timestamp := now,
      isStreaming := some true } script
  unfold sendMessage
  simp only [if_neg hw, if_neg hm, if_neg hl, hs]
  rw [if_neg (by rw [hp]; exact Bool.false_ne_true)]
  rcases hrun : runClaudeAgent true now
      { s with isProcessing := true, currentMessageId := some aid }
      { id := aid, role := "assistant", content := "", timestamp := now,
        isStreaming := some true } script with ⟨s2, amF, runEffs, runRes⟩
  simp only [hrun]
  cases runRes with
  | ok u =>
    refine ⟨trivial, _, mget_mset_self _ _ _, rfl, ?_⟩
    intro code hc
    refine ⟨amF, getLast?_append_pair s.messages _ amF, ?_⟩
    have hres := hstream code rfl hc
    rw [hrun] at hres
    exact hres
  | error e =>
    refine ⟨trivial, _, mget_mset_self _ _ _, rfl, ?_⟩
    intro code hc
    refine ⟨amF, getLast?_append_pair s.messages _ amF, ?_⟩
    have hres := hstream code rfl hc
    rw [hrun] at hres
    exact hres

/-- The one-session map the concrete `sendMessage` scenarios start from. -/
def wSessionMap : SessionMap := mset [] "w" (freshSession "w" "/repo")

theorem sendMessage_resolves_processing_cleared_witness :
    (sendMessage true 0 "u1" "a1" wSessionMap "w" "hi" ⟨[], .closed (some 0)⟩).result
      = .ok () ∧
    (mget (sendMessage true 0 "u1" "a1" wSessionMap "w" "hi"
        ⟨[], .closed (some 0)⟩).sessions "w").map (fun s => s.isProcessing)
      = some false ∧
    ((mget (sendMessage true 0 "u1" "a1" wSessionMap "w" "hi"
        ⟨[], .closed (some 0)⟩).sessions "w").bind
          (fun s => s.messages.getLast?)).map (fun m => m.isStreaming)
      = some (some false) := by
  obtain ⟨hres, s', hget, hproc, hstr⟩ :=
    sendMessage_resolves_processing_cleared 0 "u1" "a1" wSessionMap "w" "hi"
      ⟨[], .closed (some 0)⟩ (freshSession "w" "/repo")
      (by decide) (by decide) (by decide) rfl rfl
  obtain ⟨m, hm, hms⟩ := hstr (some 0) rfl
  refine ⟨hres, ?_, ?_⟩
  · rw [hget]
    simp [hproc]
  · rw [hget]
    simp [hm, hms]

/-- C2 counterexample: an accepted `sendMessage` whose child process fails to
spawn (the `error` event path) resolves with `isProcessing` cleared, but the
assistant message created for the turn still has `isStreaming = some true` —
the rejection path never forces the streaming flag false, contradicting the
claim that on every outcome (including spawn failure) the flag ends false
and is forced exactly once. -/
theorem sendMessage_spawn_failure_leaves_streaming :
    (sendMessage true 0 "u1" "a1" wSessionMap "w" "hi" ⟨[], .spawnFailed⟩).result
      = .ok () ∧
    (mget (sendMessage true 0 "u1" "a1" wSessionMap "w" "hi"
        ⟨[], .spawnFailed⟩).sessions "w").map (fun s => s.isProcessing) = some false ∧
    ((mget (sendMessage true 0 "u1" "a1" wSessionMap "w" "hi"
        ⟨[], .spawnFailed⟩).sessions "w").bind
          (fun s => s.messages.getLast?)).map (fun m => m.isStreaming)
      = some (some true) ∧
    (some (some true) : Option (Option Bool)) ≠ some (some false) := by
  refine ⟨rfl, rfl, rfl, by decide⟩
